import Mathlib

/-!
Shallow embedding of the colored Game of Life engine from `wow.py`
(class `GameOfLife`, class `MandelbrotGenerator`).

Cells are natural numbers: 0 = dead, 1 = red, 2 = blue, 3 = green, 4 = yellow.
The grid is a list of rows (row-major, `grid[y][x]` as in the numpy array).
The process-wide random source (`np.random.random()`) is modelled as a stream
`rng : Nat -> Rat` of draws consumed left to right, with the position threaded
explicitly; each call of the engine consumes draws exactly where the Python
code calls the RNG.
-/

namespace GameOfDeath

/-- Direct cell read `grid[y][x]` with numpy-style defaults: out-of-range reads
return 0 (all reachable reads in the engine are in range). -/
def gcell (g : List (List Nat)) (y x : Nat) : Nat :=
  (g.getD y []).getD x 0

/-- The engine state: the fields of `GameOfLife.__init__` that the claims
concern.  `active_bounds` is the list `[min_x, max_x, min_y, max_y]` stored as
a tuple of integers (the centered default can be negative on tiny grids). -/
structure GameState where
  width : Nat
  height : Nat
  max_width : Nat
  max_height : Nat
  grid : List (List Nat)
  active_bounds : Int × Int × Int × Int
  chaos_mode : Bool
  chaos_probability : Rat
  rule_randomness : Rat

/-- Constructor `GameOfLife.__init__(width, height, max_width, max_height)`:
all-dead grid, bounds `[0, width, 0, height]`, chaos off with default
probabilities 0.3 and 0.1. -/
def initState (width height max_width max_height : Nat) : GameState :=
  { width := width, height := height
    max_width := max_width, max_height := max_height
    grid := List.replicate height (List.replicate width 0)
    active_bounds := (0, (width : Int), 0, (height : Int))
    chaos_mode := false
    chaos_probability := mkRat 3 10
    rule_randomness := mkRat 1 10 }

/-- Toroidal cell read used inside the update scan: indices are reduced
modulo the dimensions exactly as `(x + dx) %% self.width` does in Python
(and as numpy negative indexing behaves for the in-range negatives that can
occur). -/
def gridGet (g : List (List Nat)) (w h : Nat) (x y : Int) : Nat :=
  gcell g (y % (h : Int)).toNat (x % (w : Int)).toNat

/-- Write `new_grid[y, x] = v` (same index reduction as `gridGet`). -/
def gridSet (g : List (List Nat)) (w h : Nat) (x y : Int) (v : Nat) :
    List (List Nat) :=
  let yy := (y % (h : Int)).toNat
  let xx := (x % (w : Int)).toNat
  g.set yy ((g.getD yy []).set xx v)

/-- The eight Moore-neighborhood offsets `(dx, dy)`, in the order the source
loops (`dx` outer, `dy` inner, skipping `(0,0)`). -/
def mooreOffsets : List (Int × Int) :=
  [(-1,-1), (-1,0), (-1,1), (0,-1), (0,1), (1,-1), (1,0), (1,1)]

/-- The list of the eight neighbor cell values of `(x, y)`, with toroidal
wraparound (`get_neighbors_by_color`, the loop body). -/
def neighborVals (g : List (List Nat)) (w h : Nat) (x y : Int) : List Nat :=
  mooreOffsets.map (fun d => gridGet g w h (x + d.1) (y + d.2))

/-- The per-color neighbor tally of `get_neighbors_by_color`: the dict is
keyed 1..4 and each alive neighbor increments its color's bucket, so bucket
`c` holds the number of neighbors whose value is exactly `c`; `.get` on a
missing key (only 0 is ever asked for besides 1..4) yields 0. -/
def neighborCounts (g : List (List Nat)) (w h : Nat) (x y : Int) :
    Nat → Nat :=
  fun c => if c = 0 then 0 else (neighborVals g w h x y).count c

/-- `total_neighbors = sum(color_counts.values())`. -/
def countsTotal (counts : Nat → Nat) : Nat :=
  counts 1 + counts 2 + counts 3 + counts 4

/-- `GameOfLife.get_dominant_color` (dict branch): `max` over the keys in
insertion order 1, 2, 3, 4 with the counts as the key function — Python's
`max` keeps the earliest key on ties, so a later color replaces the current
best only when strictly greater; all-zero counts return 1 (red). -/
def get_dominant_color (counts : Nat → Nat) : Nat :=
  if countsTotal counts = 0 then 1
  else [2, 3, 4].foldl (fun m k => if counts k > counts m then k else m) 1

/-- `GameOfLife.apply_original_conway_rules`. -/
def apply_original_conway_rules (current_color total_neighbors
    dominant_color : Nat) : Nat :=
  if current_color > 0 then
    if total_neighbors = 2 ∨ total_neighbors = 3 then current_color else 0
  else
    if total_neighbors = 3 then
      (if dominant_color > 0 then dominant_color else 1)
    else 0

/-- Line 91 of `apply_custom_color_rules`:
`max(color_counts.values()) if color_counts and any(color_counts.values())
else 0` — the dict is always nonempty with keys 1..4. -/
def maxColorCount (counts : Nat → Nat) : Nat :=
  if counts 1 ≠ 0 ∨ counts 2 ≠ 0 ∨ counts 3 ≠ 0 ∨ counts 4 ≠ 0 then
    max (counts 1) (max (counts 2) (max (counts 3) (counts 4)))
  else 0

/-- `GameOfLife.apply_custom_color_rules` with the single overcrowding draw
passed in as `draw` (the Python code calls `np.random.random()` exactly when
the cell is alive and `total_neighbors >= 5`; `draw` is only inspected
there). -/
def apply_custom_color_rules (current_color : Nat) (color_counts : Nat → Nat)
    (total_neighbors dominant_color : Nat) (draw : Rat) : Nat :=
  if current_color > 0 then
    if 5 ≤ total_neighbors ∧ draw < mkRat 3 5 then 0
    else if total_neighbors = 2 ∨ total_neighbors = 3 then current_color
    else if 4 ≤ total_neighbors then
      if 3 ≤ maxColorCount color_counts then
        (if dominant_color > 0 then dominant_color else current_color)
      else 0
    else if total_neighbors = 1 then
      (if color_counts current_color = 1 then current_color else 0)
    else 0
  else
    if total_neighbors = 3 then
      (if dominant_color > 0 then dominant_color else 1)
    else 0

/-- The custom-rules call site inside `update`: the RNG is consulted (one
draw) exactly when the cell is alive with at least five neighbors; otherwise
the rule is applied without touching the stream (the dummy draw 0 is never
inspected in that case, since the kill branch requires `5 ≤ total`). -/
def customStep (rng : Nat → Rat) (i : Nat) (current_color : Nat)
    (counts : Nat → Nat) (total dominant : Nat) : Nat × Nat :=
  if current_color > 0 ∧ 5 ≤ total then
    (apply_custom_color_rules current_color counts total dominant (rng i),
     i + 1)
  else
    (apply_custom_color_rules current_color counts total dominant 0, i)

/-- Model of `np.random.randint(1, 5)`: one stream draw mapped into 1..4. -/
def randInt1to5 (u : Rat) : Nat :=
  1 + (u * 4).floor.toNat % 4

/-- The completely-random-outcome block of `update` (lines 210 to 226):
an alive cell draws once and dies below 0.4, survives below 0.7, else takes
a random color; a dead cell spontaneously lives with probability 0.1. -/
def randomOutcomeRule (rng : Nat → Rat) (i : Nat) (current_color : Nat) :
    Nat × Nat :=
  if current_color > 0 then
    if rng i < mkRat 2 5 then (0, i + 1)
    else if rng i < mkRat 7 10 then (current_color, i + 1)
    else (randInt1to5 (rng (i + 1)), i + 2)
  else
    if rng i < mkRat 1 10 then (randInt1to5 (rng (i + 1)), i + 2)
    else (0, i + 1)

/-- The per-cell body of `update`'s scan loop: the chaos-mode dispatch
(lines 207 to 246).  Returns the new cell value together with the stream
position after this cell. -/
def updateCell (chaos_mode : Bool) (rule_randomness chaos_probability : Rat)
    (rng : Nat → Rat) (i : Nat) (current_color : Nat) (counts : Nat → Nat)
    (total dominant : Nat) : Nat × Nat :=
  if chaos_mode then
    if rng i < rule_randomness then
      randomOutcomeRule rng (i + 1) current_color
    else if rng (i + 1) < chaos_probability then
      customStep rng (i + 2) current_color counts total dominant
    else
      (apply_original_conway_rules current_color total dominant, i + 2)
  else
    customStep rng i current_color counts total dominant

/-- `self.bounds_margin`, set to 5 in the constructor and never changed. -/
def bounds_margin : Nat := 5

/-- `np.sum(self.grid)`. -/
def gridTotal (g : List (List Nat)) : Nat :=
  (g.map (fun r => r.sum)).sum

/-- The coordinates `(x, y)` of all non-dead cells, as produced by
`np.where(self.grid > 0)` (order is irrelevant: only min and max are used). -/
def aliveCells (g : List (List Nat)) : List (Nat × Nat) :=
  (List.range g.length).flatMap (fun y =>
    (List.range (g.getD y []).length).filterMap (fun x =>
      if gcell g y x > 0 then some (x, y) else none))

/-- `GameOfLife.update_active_bounds`: an empty grid collapses the bounds to
the centered 2-wide box; otherwise the tight bounding box of alive cells is
widened by the margin and clamped to the grid extents.  (The inner
`len(alive_cells[0]) == 0` early return is unreachable: the sum of a grid of
naturals is zero exactly when no cell is alive.) -/
def update_active_bounds (s : GameState) : GameState :=
  if gridTotal s.grid = 0 then
    { s with active_bounds :=
        ((s.width / 2 : Int) - 1, (s.width / 2 : Int) + 1,
         (s.height / 2 : Int) - 1, (s.height / 2 : Int) + 1) }
  else
    match aliveCells s.grid with
    | [] => s
    | p :: rest =>
      let min_x := (rest.map (fun q => q.1)).foldl min p.1
      let max_x := (rest.map (fun q => q.1)).foldl max p.1
      let min_y := (rest.map (fun q => q.2)).foldl min p.2
      let max_y := (rest.map (fun q => q.2)).foldl max p.2
      { s with active_bounds :=
          (max 0 ((min_x : Int) - (bounds_margin : Int)),
           min (s.width : Int) ((max_x : Int) + (bounds_margin : Int) + 1),
           max 0 ((min_y : Int) - (bounds_margin : Int)),
           min (s.height : Int) ((max_y : Int) + (bounds_margin : Int) + 1)) }

/-- `range(a, b)` over integers. -/
def intRange (a b : Int) : List Int :=
  (List.range (b - a).toNat).map (fun k => a + (k : Int))

/-- One iteration of the scan loop of `update`: read the neighbor data and
current color from the frozen source grid `g0`, dispatch the rules, and write
the result into the working grid (the accumulator also carries the RNG
stream position). -/
def stepCell (g0 : List (List Nat)) (w h : Nat) (chaos_mode : Bool)
    (rule_randomness chaos_probability : Rat) (rng : Nat → Rat)
    (acc : List (List Nat) × Nat) (p : Int × Int) : List (List Nat) × Nat :=
  let counts := neighborCounts g0 w h p.1 p.2
  let total := countsTotal counts
  let cur := gridGet g0 w h p.1 p.2
  let dominant := get_dominant_color counts
  let r := updateCell chaos_mode rule_randomness chaos_probability rng acc.2
    cur counts total dominant
  (gridSet acc.1 w h p.1 p.2 r.1, r.2)

/-- The scan coordinates of `update`: `x` inner, `y` outer, over the active
rectangle. -/
def scanCoords (b : Int × Int × Int × Int) : List (Int × Int) :=
  (intRange b.2.2.1 b.2.2.2).flatMap (fun y =>
    (intRange b.1 b.2.1).map (fun x => (x, y)))

/-- `GameOfLife.update`: refresh the active bounds, return early if the
active rectangle is degenerate (the grid is then left untouched), otherwise
scan the rectangle cell by cell into a copy of the grid. -/
def update (s : GameState) (rng : Nat → Rat) : GameState :=
  let s1 := update_active_bounds s
  let b := s1.active_bounds
  if b.2.1 - b.1 ≤ 0 ∨ b.2.2.2 - b.2.2.1 ≤ 0 then s1
  else
    let r := (scanCoords b).foldl
      (stepCell s1.grid s1.width s1.height s1.chaos_mode s1.rule_randomness
        s1.chaos_probability rng) (s1.grid, 0)
    { s1 with grid := r.1 }

/-- `GameOfLife.expand_grid_if_needed`.  The integer offsets are formed in
`Nat`; in Python they can be negative only when the current dimensions
already exceed the maxima, in which case the numpy slice assignment raises
(shape mismatch), so no non-crashing run is affected. -/
def expand_grid_if_needed (s : GameState) (target_width target_height : Nat) :
    Bool × GameState :=
  let new_width := min (max s.width target_width) s.max_width
  let new_height := min (max s.height target_height) s.max_height
  if new_width ≠ s.width ∨ new_height ≠ s.height then
    let offset_y := (new_height - s.height) / 2
    let offset_x := (new_width - s.width) / 2
    let new_grid := (List.range new_height).map (fun yy =>
      (List.range new_width).map (fun xx =>
        if offset_y ≤ yy ∧ yy < offset_y + s.height ∧
           offset_x ≤ xx ∧ xx < offset_x + s.width then
          gcell s.grid (yy - offset_y) (xx - offset_x)
        else 0))
    (true,
     { s with
       grid := new_grid
       width := new_width
       height := new_height
       active_bounds :=
         (s.active_bounds.1 + (offset_x : Int),
          s.active_bounds.2.1 + (offset_x : Int),
          s.active_bounds.2.2.1 + (offset_y : Int),
          s.active_bounds.2.2.2 + (offset_y : Int)) })
  else (false, s)

/-- `GameOfLife.set_max_size`: stores the new maxima without touching the
current dimensions. -/
def set_max_size (s : GameState) (max_width max_height : Nat) : GameState :=
  { s with max_width := max_width, max_height := max_height }

/-- `GameOfLife.set_grid`: `astype(np.uint8)` reduces every entry modulo 256
(it truncates, it does not clamp), the dimensions are taken from the pattern
shape, and the active bounds are recomputed. -/
def set_grid (s : GameState) (new_grid : List (List Nat)) : GameState :=
  update_active_bounds
    { s with
      grid := new_grid.map (fun r => r.map (fun v => v % 256))
      height := new_grid.length
      width := (new_grid.headD []).length }

/-- `GameOfLife.clear`: all-dead grid of the current dimensions, bounds reset
to the centered default. -/
def clear (s : GameState) : GameState :=
  { s with
    grid := List.replicate s.height (List.replicate s.width 0)
    active_bounds :=
      ((s.width / 2 : Int) - 1, (s.width / 2 : Int) + 1,
       (s.height / 2 : Int) - 1, (s.height / 2 : Int) + 1) }

/-- Squared modulus of a complex number represented as a pair of rationals;
`abs(z) > 2` is exactly `re^2 + im^2 > 4`. -/
def absSq (z : Rat × Rat) : Rat := z.1 * z.1 + z.2 * z.2

/-- One step `z * z + c` of the escape iteration. -/
def mandelStep (z c : Rat × Rat) : Rat × Rat :=
  (z.1 * z.1 - z.2 * z.2 + c.1, 2 * z.1 * z.2 + c.2)

/-- The loop of `MandelbrotGenerator.mandelbrot_iteration`: at each of the
`max_iter` turns, first test the escape condition and return the count `n`
reached so far, otherwise advance `z`; when the fuel runs out the count has
reached `max_iter`. -/
def mandelIterGo (c : Rat × Rat) : Nat → (Rat × Rat) → Nat → Nat
  | 0, _, n => n
  | fuel + 1, z, n => if absSq z > 4 then n else mandelIterGo c fuel (mandelStep z c) (n + 1)

/-- `MandelbrotGenerator.mandelbrot_iteration(c, max_iter)` over exact
rational arithmetic (an idealization of the float64 the Python runs on). -/
def mandelbrot_iteration (c : Rat × Rat) (max_iter : Nat) : Nat :=
  mandelIterGo c max_iter (0, 0) 0

/-- `MandelbrotGenerator.generate_mandelbrot_grid`: each pixel is mapped
linearly onto the requested window of the complex plane, iterated, and is
alive (value 1) exactly when its escape count stays below the threshold. -/
def generate_mandelbrot_grid (width height : Nat) (x_min x_max y_min y_max : Rat)
    (max_iter threshold : Nat) : List (List Nat) :=
  (List.range height).map (fun (y : Nat) =>
    (List.range width).map (fun (x : Nat) =>
      let real := x_min + ((x : Rat) / (width : Rat)) * (x_max - x_min)
      let imag := y_min + ((y : Rat) / (height : Rat)) * (y_max - y_min)
      if mandelbrot_iteration (real, imag) max_iter < threshold then 1 else 0))

/-! Concrete states used to test the claims. -/

/-- Build a grid from a coordinate function (x across, y down). -/
def mkGridF (w h : Nat) (f : Nat → Nat → Nat) : List (List Nat) :=
  (List.range h).map (fun y => (List.range w).map (fun x => f x y))

/-- A horizontal 3-cell row of color `c` centered on an otherwise dead
7 by 7 grid. -/
def blinkerGrid (c : Nat) : List (List Nat) :=
  mkGridF 7 7 (fun x y => if y = 3 ∧ 2 ≤ x ∧ x ≤ 4 then c else 0)

/-- The blinker state with chaos off (the custom color rules always apply). -/
def blinkerCustom (c : Nat) : GameState :=
  { initState 7 7 500 500 with grid := blinkerGrid c }

/-- The blinker state with chaos on but both probabilities zero, which forces
the original monochrome rule branch for every cell. -/
def blinkerForced (c : Nat) : GameState :=
  { blinkerCustom c with
    chaos_mode := true
    chaos_probability := 0
    rule_randomness := 0 }

/-- A 3 by 3 block of red on a 7 by 7 grid, chaos off; its center has eight
alive neighbors, so the overcrowding draw is consulted. -/
def blockState : GameState :=
  { initState 7 7 500 500 with
    grid := mkGridF 7 7 (fun x y => if 2 ≤ x ∧ x ≤ 4 ∧ 2 ≤ y ∧ y ≤ 4 then 1 else 0) }

/-- Every stored cell value is a legal color code 0..4. -/
def ValidGrid (g : List (List Nat)) : Prop :=
  ∀ r ∈ g, ∀ v ∈ r, v ≤ 4

instance : DecidablePred ValidGrid := fun g =>
  inferInstanceAs (Decidable (∀ r ∈ g, ∀ v ∈ r, v ≤ 4))

/-- The grid list really has the stored dimensions. -/
def WFGrid (s : GameState) : Prop :=
  s.grid.length = s.height ∧ ∀ r ∈ s.grid, r.length = s.width

instance : DecidablePred WFGrid := fun s =>
  inferInstanceAs (Decidable (s.grid.length = s.height ∧ ∀ r ∈ s.grid, r.length = s.width))

/-- Decidable check: no cell scanned by the next `update` is alive with five
or more alive neighbors (the only situation in which the chaos-off path
consults the RNG). -/
def overcrowdFreeB (s : GameState) : Bool :=
  let s1 := update_active_bounds s
  (scanCoords s1.active_bounds).all (fun p =>
    !(decide (0 < gridGet s1.grid s1.width s1.height p.1 p.2) &&
      decide (5 ≤ countsTotal (neighborCounts s1.grid s1.width s1.height p.1 p.2))))

/-- The custom color rules as the specification states them, keyed on the
overcrowding draw, the neighbor total, the per-color counts, and the
dominant color: an alive cell with five or more neighbors dies when the
draw falls below 0.6 and no further branch is evaluated; otherwise an alive
cell keeps its color on a total of 2 or 3, on a total of at least 4 it
survives as the dominant color (falling back to its own color if the
dominant resolves to dead) exactly when some single color has at least 3
neighbors, on a total of 1 it survives exactly when its one neighbor shares
its color, and on a total of 0 it dies; a dead cell is born with the
dominant color (falling back to red) exactly on a total of 3. -/
def customRulesSpec (draw : Rat) (cur : Nat) (counts : Nat → Nat)
    (total dominant : Nat) : Nat :=
  if cur ≠ 0 then
    if 5 ≤ total ∧ draw < mkRat 3 5 then 0
    else if total = 2 ∨ total = 3 then cur
    else if 4 ≤ total then
      if 3 ≤ max (counts 1) (max (counts 2) (max (counts 3) (counts 4))) then
        (if dominant = 0 then cur else dominant)
      else 0
    else if total = 1 then
      (if counts cur = 1 then cur else 0)
    else 0
  else
    if total = 3 then (if dominant = 0 then 1 else dominant) else 0

/-! Generic list lemmas. -/

/-- An element-wise property transfers through `List.getD` when the default
also satisfies it. -/
theorem getD_prop {α : Type} {P : α → Prop} {l : List α} {d : α} (i : Nat)
    (hl : ∀ v ∈ l, P v) (hd : P d) : P (l.getD i d) := by
  rcases Nat.lt_or_ge i l.length with h | h
  · rw [List.getD_eq_getElem l d h]
    exact hl _ (List.getElem_mem h)
  · rw [List.getD_eq_default l d h]
    exact hd

theorem foldl_min_le_init (l : List Nat) (a : Nat) : l.foldl min a ≤ a := by
  induction l generalizing a with
  | nil => exact Nat.le_refl a
  | cons x xs ih =>
    exact Nat.le_trans (ih (min a x)) (Nat.min_le_left a x)

theorem foldl_min_le_mem (l : List Nat) (a b : Nat) (hb : b ∈ l) :
    l.foldl min a ≤ b := by
  induction l generalizing a with
  | nil => cases hb
  | cons x xs ih =>
    rcases List.mem_cons.mp hb with rfl | hb
    · exact Nat.le_trans (foldl_min_le_init xs (min a b)) (Nat.min_le_right a b)
    · exact ih _ hb

theorem foldl_min_choice (l : List Nat) (a : Nat) :
    l.foldl min a = a ∨ l.foldl min a ∈ l := by
  induction l generalizing a with
  | nil => exact Or.inl rfl
  | cons x xs ih =>
    rcases ih (min a x) with h | h
    · rcases min_choice a x with h' | h'
      · exact Or.inl (h.trans h')
      · exact Or.inr (List.mem_cons.mpr (Or.inl (h.trans h')))
    · exact Or.inr (List.mem_cons.mpr (Or.inr h))

theorem le_foldl_max_init (l : List Nat) (a : Nat) : a ≤ l.foldl max a := by
  induction l generalizing a with
  | nil => exact Nat.le_refl a
  | cons x xs ih =>
    exact Nat.le_trans (Nat.le_max_left a x) (ih (max a x))

theorem le_foldl_max_mem (l : List Nat) (a b : Nat) (hb : b ∈ l) :
    b ≤ l.foldl max a := by
  induction l generalizing a with
  | nil => cases hb
  | cons x xs ih =>
    rcases List.mem_cons.mp hb with rfl | hb
    · exact Nat.le_trans (Nat.le_max_right a b) (le_foldl_max_init xs (max a b))
    · exact ih _ hb

theorem foldl_max_choice (l : List Nat) (a : Nat) :
    l.foldl max a = a ∨ l.foldl max a ∈ l := by
  induction l generalizing a with
  | nil => exact Or.inl rfl
  | cons x xs ih =>
    rcases ih (max a x) with h | h
    · rcases max_choice a x with h' | h'
      · exact Or.inl (h.trans h')
      · exact Or.inr (List.mem_cons.mpr (Or.inl (h.trans h')))
    · exact Or.inr (List.mem_cons.mpr (Or.inr h))

/-- Reading a cell of a grid built by `List.range` maps. -/
theorem gcell_mk (H W : Nat) (f : Nat → Nat → Nat) (y x : Nat)
    (hy : y < H) (hx : x < W) :
    gcell ((List.range H).map (fun yy => (List.range W).map (fun xx => f yy xx))) y x
      = f y x := by
  simp [gcell, List.getD_eq_getElem?_getD, List.getElem?_map,
    List.getElem?_range, hy, hx]

/-! Projection lemmas: which fields each operation leaves untouched. -/

theorem uab_width (s : GameState) : (update_active_bounds s).width = s.width := by
  unfold update_active_bounds
  split
  · rfl
  · split <;> rfl

theorem uab_height (s : GameState) : (update_active_bounds s).height = s.height := by
  unfold update_active_bounds
  split
  · rfl
  · split <;> rfl

theorem uab_grid (s : GameState) : (update_active_bounds s).grid = s.grid := by
  unfold update_active_bounds
  split
  · rfl
  · split <;> rfl

theorem uab_max_width (s : GameState) :
    (update_active_bounds s).max_width = s.max_width := by
  unfold update_active_bounds
  split
  · rfl
  · split <;> rfl

theorem uab_max_height (s : GameState) :
    (update_active_bounds s).max_height = s.max_height := by
  unfold update_active_bounds
  split
  · rfl
  · split <;> rfl

theorem uab_chaos_mode (s : GameState) :
    (update_active_bounds s).chaos_mode = s.chaos_mode := by
  unfold update_active_bounds
  split
  · rfl
  · split <;> rfl

theorem uab_chaos_probability (s : GameState) :
    (update_active_bounds s).chaos_probability = s.chaos_probability := by
  unfold update_active_bounds
  split
  · rfl
  · split <;> rfl

theorem uab_rule_randomness (s : GameState) :
    (update_active_bounds s).rule_randomness = s.rule_randomness := by
  unfold update_active_bounds
  split
  · rfl
  · split <;> rfl

theorem update_width (s : GameState) (rng : Nat → Rat) :
    (update s rng).width = s.width := by
  unfold update
  dsimp only
  split <;> exact uab_width s

theorem update_height (s : GameState) (rng : Nat → Rat) :
    (update s rng).height = s.height := by
  unfold update
  dsimp only
  split <;> exact uab_height s

theorem update_max_width (s : GameState) (rng : Nat → Rat) :
    (update s rng).max_width = s.max_width := by
  unfold update
  dsimp only
  split <;> exact uab_max_width s

theorem update_max_height (s : GameState) (rng : Nat → Rat) :
    (update s rng).max_height = s.max_height := by
  unfold update
  dsimp only
  split <;> exact uab_max_height s

theorem update_chaos_mode (s : GameState) (rng : Nat → Rat) :
    (update s rng).chaos_mode = s.chaos_mode := by
  unfold update
  dsimp only
  split <;> exact uab_chaos_mode s

theorem update_chaos_probability (s : GameState) (rng : Nat → Rat) :
    (update s rng).chaos_probability = s.chaos_probability := by
  unfold update
  dsimp only
  split <;> exact uab_chaos_probability s

theorem update_rule_randomness (s : GameState) (rng : Nat → Rat) :
    (update s rng).rule_randomness = s.rule_randomness := by
  unfold update
  dsimp only
  split <;> exact uab_rule_randomness s

theorem gcell_le (g : List (List Nat)) (y x : Nat) (hg : ValidGrid g) :
    gcell g y x ≤ 4 := by
  unfold gcell
  refine getD_prop (P := fun v => v ≤ 4) x ?_ (by omega)
  intro v hv
  revert hv v
  exact getD_prop (P := fun r => ∀ v ∈ r, v ≤ 4) y hg (by simp)

theorem gridGet_le (g : List (List Nat)) (w h : Nat) (x y : Int)
    (hg : ValidGrid g) : gridGet g w h x y ≤ 4 :=
  gcell_le g _ _ hg

/-- The dominant color is always one of the four color codes. -/
theorem get_dominant_color_mem (counts : Nat → Nat) :
    get_dominant_color counts = 1 ∨ get_dominant_color counts = 2 ∨
    get_dominant_color counts = 3 ∨ get_dominant_color counts = 4 := by
  unfold get_dominant_color
  split
  · exact Or.inl rfl
  · simp only [List.foldl]
    split_ifs <;> simp

theorem randInt1to5_le (u : Rat) : randInt1to5 u ≤ 4 := by
  unfold randInt1to5
  omega

theorem randInt1to5_pos (u : Rat) : 1 ≤ randInt1to5 u := by
  unfold randInt1to5
  omega

theorem apply_custom_le (cur : Nat) (counts : Nat → Nat)
    (total dominant : Nat) (draw : Rat) (hcur : cur ≤ 4) (hdom : dominant ≤ 4) :
    apply_custom_color_rules cur counts total dominant draw ≤ 4 := by
  unfold apply_custom_color_rules
  split_ifs <;> omega

theorem apply_original_le (cur total dominant : Nat)
    (hcur : cur ≤ 4) (hdom : dominant ≤ 4) :
    apply_original_conway_rules cur total dominant ≤ 4 := by
  unfold apply_original_conway_rules
  split_ifs <;> omega

theorem customStep_le (rng : Nat → Rat) (i : Nat) (cur : Nat)
    (counts : Nat → Nat) (total dominant : Nat)
    (hcur : cur ≤ 4) (hdom : dominant ≤ 4) :
    (customStep rng i cur counts total dominant).1 ≤ 4 := by
  unfold customStep
  split <;> exact apply_custom_le _ _ _ _ _ hcur hdom

theorem randomOutcomeRule_le (rng : Nat → Rat) (i : Nat) (cur : Nat)
    (hcur : cur ≤ 4) : (randomOutcomeRule rng i cur).1 ≤ 4 := by
  unfold randomOutcomeRule
  have h1 := randInt1to5_le (rng (i + 1))
  split_ifs <;> simp <;> omega

/-- Every value the per-cell dispatch can write is a legal color code,
provided the current color and the dominant color are. -/
theorem updateCell_le (chaos_mode : Bool) (rr cp : Rat) (rng : Nat → Rat)
    (i : Nat) (cur : Nat) (counts : Nat → Nat) (total dominant : Nat)
    (hcur : cur ≤ 4) (hdom : dominant ≤ 4) :
    (updateCell chaos_mode rr cp rng i cur counts total dominant).1 ≤ 4 := by
  unfold updateCell
  split_ifs
  · exact randomOutcomeRule_le _ _ _ hcur
  · exact customStep_le _ _ _ _ _ _ hcur hdom
  · exact apply_original_le _ _ _ hcur hdom
  · exact customStep_le _ _ _ _ _ _ hcur hdom

/-- `List.set` writes preserve validity. -/
theorem gridSet_valid (g : List (List Nat)) (w h : Nat) (x y : Int)
    (v : Nat) (hg : ValidGrid g) (hv : v ≤ 4) :
    ValidGrid (gridSet g w h x y v) := by
  unfold gridSet
  intro r hr
  rcases List.mem_or_eq_of_mem_set hr with hr' | rfl
  · exact hg r hr'
  · intro u hu
    rcases List.mem_or_eq_of_mem_set hu with hu' | rfl
    · have hrow : ∀ v ∈ g.getD (y % (h : Int)).toNat [], v ≤ 4 :=
        getD_prop (P := fun r => ∀ v ∈ r, v ≤ 4) _ hg (by simp)
      exact hrow u hu'
    · exact hv

/-- The scan loop of `update` preserves validity of the working grid. -/
theorem foldl_stepCell_valid (g0 : List (List Nat)) (w h : Nat)
    (cm : Bool) (rr cp : Rat) (rng : Nat → Rat) (hg0 : ValidGrid g0)
    (coords : List (Int × Int)) :
    ∀ (g : List (List Nat)) (i : Nat), ValidGrid g →
      ValidGrid ((coords.foldl (stepCell g0 w h cm rr cp rng) (g, i)).1) := by
  induction coords with
  | nil => intro g i hg; exact hg
  | cons p ps ih =>
    intro g i hg
    simp only [List.foldl_cons]
    unfold stepCell
    refine ih _ _ ?_
    refine gridSet_valid _ _ _ _ _ _ hg ?_
    refine updateCell_le _ _ _ _ _ _ _ _ _ (gridGet_le _ _ _ _ _ hg0) ?_
    rcases get_dominant_color_mem (neighborCounts g0 w h p.1 p.2) with
      h | h | h | h <;> omega

/-- Evaluation of one scan step on the chaos-off path for a cell that is not
an overcrowded alive cell: the dummy draw 0 is used and the stream position
is unchanged. -/
theorem stepCell_nofree (g0 : List (List Nat)) (w h : Nat) (rr cp : Rat)
    (rng : Nat → Rat) (acc : List (List Nat) × Nat) (p : Int × Int)
    (hp : ¬(0 < gridGet g0 w h p.1 p.2 ∧
      5 ≤ countsTotal (neighborCounts g0 w h p.1 p.2))) :
    stepCell g0 w h false rr cp rng acc p =
      (gridSet acc.1 w h p.1 p.2
        (apply_custom_color_rules (gridGet g0 w h p.1 p.2)
          (neighborCounts g0 w h p.1 p.2)
          (countsTotal (neighborCounts g0 w h p.1 p.2))
          (get_dominant_color (neighborCounts g0 w h p.1 p.2)) 0),
       acc.2) := by
  unfold stepCell updateCell customStep
  dsimp only
  rw [if_neg (by simp), if_neg hp]

/-- On the chaos-off path, as long as no scanned cell is an overcrowded alive
cell, the scan result does not depend on the RNG stream or its position. -/
theorem foldl_stepCell_rng_free (g0 : List (List Nat)) (w h : Nat)
    (rr cp : Rat) (rng1 rng2 : Nat → Rat) (coords : List (Int × Int))
    (hfree : ∀ p ∈ coords,
      ¬(0 < gridGet g0 w h p.1 p.2 ∧
        5 ≤ countsTotal (neighborCounts g0 w h p.1 p.2))) :
    ∀ (g : List (List Nat)) (i1 i2 : Nat),
      (coords.foldl (stepCell g0 w h false rr cp rng1) (g, i1)).1 =
      (coords.foldl (stepCell g0 w h false rr cp rng2) (g, i2)).1 := by
  induction coords with
  | nil => intro g i1 i2; rfl
  | cons p ps ih =>
    intro g i1 i2
    have hp := hfree p (List.mem_cons_self p ps)
    have hps : ∀ q ∈ ps, ¬(0 < gridGet g0 w h q.1 q.2 ∧
        5 ≤ countsTotal (neighborCounts g0 w h q.1 q.2)) :=
      fun q hq => hfree q (List.mem_cons_of_mem p hq)
    simp only [List.foldl_cons]
    rw [stepCell_nofree g0 w h rr cp rng1 (g, i1) p hp,
      stepCell_nofree g0 w h rr cp rng2 (g, i2) p hp]
    exact ih hps _ _ _

/-- Evaluation of one scan step with chaos on and both probabilities zero:
a nonnegative draw never falls below zero, so the original monochrome rules
fire and exactly the two dispatch draws are consumed. -/
theorem stepCell_forced (g0 : List (List Nat)) (w h : Nat)
    (rng : Nat → Rat) (acc : List (List Nat) × Nat) (p : Int × Int)
    (h1 : 0 ≤ rng acc.2) (h2 : 0 ≤ rng (acc.2 + 1)) :
    stepCell g0 w h true 0 0 rng acc p =
      (gridSet acc.1 w h p.1 p.2
        (apply_original_conway_rules (gridGet g0 w h p.1 p.2)
          (countsTotal (neighborCounts g0 w h p.1 p.2))
          (get_dominant_color (neighborCounts g0 w h p.1 p.2))),
       acc.2 + 2) := by
  unfold stepCell updateCell
  dsimp only
  rw [if_pos rfl, if_neg (not_lt.mpr h1), if_neg (not_lt.mpr h2)]

/-- Forcing the original-rules branch: with chaos on and both probabilities
zero, the scan result does not depend on the RNG values. -/
theorem foldl_stepCell_forced (g0 : List (List Nat)) (w h : Nat)
    (rng1 rng2 : Nat → Rat) (coords : List (Int × Int))
    (hn1 : ∀ i, 0 ≤ rng1 i) (hn2 : ∀ i, 0 ≤ rng2 i) :
    ∀ (g : List (List Nat)) (i : Nat),
      (coords.foldl (stepCell g0 w h true 0 0 rng1) (g, i)) =
      (coords.foldl (stepCell g0 w h true 0 0 rng2) (g, i)) := by
  induction coords with
  | nil => intro g i; rfl
  | cons p ps ih =>
    intro g i
    simp only [List.foldl_cons]
    rw [stepCell_forced g0 w h rng1 (g, i) p (hn1 i) (hn1 (i + 1)),
      stepCell_forced g0 w h rng2 (g, i) p (hn2 i) (hn2 (i + 1))]
    exact ih _ _

/-- With chaos on and both probabilities zero, `update` does not depend on
the RNG values (as long as they are nonnegative, as draws of
`np.random.random()` are). -/
theorem update_forced (s : GameState) (rng1 rng2 : Nat → Rat)
    (hc : s.chaos_mode = true) (hr : s.rule_randomness = 0)
    (hp : s.chaos_probability = 0)
    (h1 : ∀ i, 0 ≤ rng1 i) (h2 : ∀ i, 0 ≤ rng2 i) :
    update s rng1 = update s rng2 := by
  unfold update
  dsimp only
  rw [uab_chaos_mode, hc, uab_rule_randomness, hr, uab_chaos_probability, hp]
  split
  · rfl
  · rw [foldl_stepCell_forced (update_active_bounds s).grid
      (update_active_bounds s).width (update_active_bounds s).height
      rng1 rng2 (scanCoords (update_active_bounds s).active_bounds) h1 h2
      (update_active_bounds s).grid 0]

/-- `maxColorCount` is plainly the maximum of the four buckets (the guard in
the source only matters when all four are zero, where the maximum is zero
anyway). -/
theorem maxColorCount_eq (counts : Nat → Nat) :
    maxColorCount counts =
      max (counts 1) (max (counts 2) (max (counts 3) (counts 4))) := by
  unfold maxColorCount
  split_ifs with h
  · rfl
  · push_neg at h
    simp [h.1, h.2.1, h.2.2.1, h.2.2.2]

/-- The source's custom-rule function agrees with the specification's rule
table branch for branch, for any value of the overcrowding draw. -/
theorem apply_custom_eq_spec (cur : Nat) (counts : Nat → Nat)
    (total dominant : Nat) (draw : Rat) :
    apply_custom_color_rules cur counts total dominant draw =
      customRulesSpec draw cur counts total dominant := by
  unfold apply_custom_color_rules customRulesSpec
  rw [maxColorCount_eq]
  split_ifs <;> omega

/-! The claims. -/

/-- C1 (counterexample): with chaos off, `step()` from identical grids is
not independent of the randomness — the all-zero and all-one draw streams
give different successor grids for a 3 by 3 block, whose interior cells are
alive with at least five neighbors and therefore consult the 0.6
overcrowding draw. -/
theorem C1_counterexample :
    blockState.chaos_mode = false ∧
    (update blockState (fun _ => 0)).grid ≠ (update blockState (fun _ => 1)).grid := by
  exact ⟨rfl, by decide⟩

/-- C1 (amended): with chaos off, `step()` consults randomness only through
the overcrowding draw of alive cells with five or more alive neighbors; on
any starting grid whose scanned cells include no such cell, two invocations
from identical states produce identical states whatever the draws are. -/
theorem C1_amended (s : GameState) (rng1 rng2 : Nat → Rat)
    (hc : s.chaos_mode = false) (hf : overcrowdFreeB s = true) :
    update s rng1 = update s rng2 := by
  have hfree : ∀ p ∈ scanCoords (update_active_bounds s).active_bounds,
      ¬(0 < gridGet (update_active_bounds s).grid (update_active_bounds s).width
          (update_active_bounds s).height p.1 p.2 ∧
        5 ≤ countsTotal (neighborCounts (update_active_bounds s).grid
          (update_active_bounds s).width (update_active_bounds s).height p.1 p.2)) := by
    unfold overcrowdFreeB at hf
    rw [List.all_eq_true] at hf
    intro p hp
    rintro ⟨hpos, hge⟩
    have h' := hf p hp
    simp only [Bool.not_eq_eq_eq_not, Bool.not_true, Bool.and_eq_false_imp,
      decide_eq_true_eq, decide_eq_false_iff_not, not_le] at h'
    have := h' hpos
    omega
  unfold update
  dsimp only
  rw [uab_chaos_mode, hc]
  split
  · rfl
  · have := foldl_stepCell_rng_free (update_active_bounds s).grid
      (update_active_bounds s).width (update_active_bounds s).height
      (update_active_bounds s).rule_randomness (update_active_bounds s).chaos_probability
      rng1 rng2 (scanCoords (update_active_bounds s).active_bounds) hfree
      (update_active_bounds s).grid 0 0
    rw [this]

/-- C1 (witness): the blinker grid has no overcrowded cell, so its chaos-off
step is the same under two different draw streams. -/
theorem C1_witness :
    update (blinkerCustom 1) (fun _ => 0) = update (blinkerCustom 1) (fun _ => 1) :=
  C1_amended (blinkerCustom 1) (fun _ => 0) (fun _ => 1) rfl (by decide)

/-- C2: for every cell handled by the custom-rules call site of `update`,
the per-cell transition equals the specification's rule table, with the
consumed draw (when the cell is alive with five or more neighbors) matched
against 0.6. -/
theorem C2_custom_rules_table (rng : Nat → Rat) (i : Nat) (cur : Nat)
    (counts : Nat → Nat) (total dominant : Nat) :
    (customStep rng i cur counts total dominant).1 =
      customRulesSpec (rng i) cur counts total dominant := by
  unfold customStep
  split
  · exact apply_custom_eq_spec cur counts total dominant (rng i)
  · rename_i h
    rw [apply_custom_eq_spec]
    unfold customRulesSpec
    by_cases hcur : cur = 0
    · simp [hcur]
    · have hT : ¬ 5 ≤ total := fun hT => h ⟨Nat.pos_of_ne_zero hcur, hT⟩
      simp [hcur, hT]

/-- C3: the per-cell dispatch of `update` follows the specification's
order: with chaos on, a first draw below the random-outcome probability
selects the random-outcome rule and skips everything else; otherwise a
second draw below the custom-rule probability selects the custom color
rules; otherwise the original monochrome rules; with chaos off the custom
color rules always apply. -/
theorem C3_dispatch_order (chaos_mode : Bool) (rr cp : Rat)
    (rng : Nat → Rat) (i : Nat) (cur : Nat) (counts : Nat → Nat)
    (total dominant : Nat) :
    (chaos_mode = true → rng i < rr →
      updateCell chaos_mode rr cp rng i cur counts total dominant =
        randomOutcomeRule rng (i + 1) cur) ∧
    (chaos_mode = true → ¬ rng i < rr → rng (i + 1) < cp →
      updateCell chaos_mode rr cp rng i cur counts total dominant =
        customStep rng (i + 2) cur counts total dominant) ∧
    (chaos_mode = true → ¬ rng i < rr → ¬ rng (i + 1) < cp →
      updateCell chaos_mode rr cp rng i cur counts total dominant =
        (apply_original_conway_rules cur total dominant, i + 2)) ∧
    (chaos_mode = false →
      updateCell chaos_mode rr cp rng i cur counts total dominant =
        customStep rng i cur counts total dominant) := by
  refine ⟨?_, ?_, ?_, ?_⟩
  · intro h h1
    simp [updateCell, h, h1]
  · intro h h1 h2
    simp [updateCell, h, h1, h2]
  · intro h h1 h2
    simp [updateCell, h, h1, h2]
  · intro h
    simp [updateCell, h]

/-- C3 (witness): with chaos off the dispatch is the custom-rules call. -/
theorem C3_witness :
    updateCell false (mkRat 1 10) (mkRat 3 10) (fun _ => 0) 0 1 (fun _ => 0) 0 1 =
      customStep (fun _ => 0) 0 1 (fun _ => 0) 0 1 :=
  (C3_dispatch_order false (mkRat 1 10) (mkRat 3 10) (fun _ => 0) 0 1
    (fun _ => 0) 0 1).2.2.2 rfl

/-- C8: `get_dominant_color` returns a color whose count no other color
exceeds, every earlier color in the fixed order red, blue, green, yellow has
a strictly smaller count (so the first color reaching the maximum wins), the
result is one of the four colors, and all-zero counts yield red. -/
theorem C8_dominant_color (counts : Nat → Nat) :
    ((counts 1 = 0 ∧ counts 2 = 0 ∧ counts 3 = 0 ∧ counts 4 = 0) →
      get_dominant_color counts = 1) ∧
    (∀ c, (c = 1 ∨ c = 2 ∨ c = 3 ∨ c = 4) →
      counts c ≤ counts (get_dominant_color counts)) ∧
    (∀ c, (c = 1 ∨ c = 2 ∨ c = 3 ∨ c = 4) → c < get_dominant_color counts →
      counts c < counts (get_dominant_color counts)) ∧
    (get_dominant_color counts = 1 ∨ get_dominant_color counts = 2 ∨
      get_dominant_color counts = 3 ∨ get_dominant_color counts = 4) := by
  unfold get_dominant_color countsTotal
  simp only [List.foldl_cons, List.foldl_nil]
  split_ifs <;>
    refine ⟨fun hz => by omega,
      fun c hc => by rcases hc with rfl | rfl | rfl | rfl <;> omega,
      fun c hc hlt => by rcases hc with rfl | rfl | rfl | rfl <;> omega,
      by omega⟩

/-- C8 (witness): on the all-zero tally the dominant color is red. -/
theorem C8_witness : get_dominant_color (fun _ => 0) = 1 :=
  (C8_dominant_color (fun _ => 0)).1 ⟨rfl, rfl, rfl, rfl⟩

/-- C9 (counterexample): under the custom color rules the 3-cell row is not
restored after two steps — the same-color single-neighbor survival rule
keeps the end cells alive, so the row becomes a plus shape and then a 3 by 3
block. -/
theorem C9_counterexample :
    (update (update (blinkerCustom 1) (fun _ => 0)) (fun _ => 0)).grid ≠
      blinkerGrid 1 := by
  decide

/-- C9 (amended): with ChaosConfig forced to always select the original
monochrome branch (chaos on, both probabilities zero), a horizontal 3-cell
row of any of the four colors on an otherwise dead grid away from the edges
returns to its original configuration after exactly two steps, for any
nonnegative draw streams; under the custom color rules the row is not
restored (see the counterexample). -/
theorem C9_amended (c : Nat) (hc : c = 1 ∨ c = 2 ∨ c = 3 ∨ c = 4)
    (rng1 rng2 : Nat → Rat) (h1 : ∀ i, 0 ≤ rng1 i) (h2 : ∀ i, 0 ≤ rng2 i) :
    (update (update (blinkerForced c) rng1) rng2).grid = blinkerGrid c ∧
    (update (blinkerForced c) rng1).grid ≠ blinkerGrid c := by
  have e1 : update (blinkerForced c) rng1 = update (blinkerForced c) (fun _ => 0) :=
    update_forced _ _ _ rfl rfl rfl h1 (fun _ => le_refl 0)
  have e2 : update (update (blinkerForced c) (fun _ => 0)) rng2 =
      update (update (blinkerForced c) (fun _ => 0)) (fun _ => 0) := by
    refine update_forced _ _ _ ?_ ?_ ?_ h2 (fun _ => le_refl 0)
    · rw [update_chaos_mode]; rfl
    · rw [update_rule_randomness]; rfl
    · rw [update_chaos_probability]; rfl
  rw [e1, e2]
  rcases hc with rfl | rfl | rfl | rfl <;> exact ⟨by decide, by decide⟩

/-- C9 (witness): the forced-original blinker of color 2 with all-zero draw
streams. -/
theorem C9_witness :
    (update (update (blinkerForced 2) (fun _ => 0)) (fun _ => 0)).grid =
      blinkerGrid 2 ∧
    (update (blinkerForced 2) (fun _ => 0)).grid ≠ blinkerGrid 2 :=
  C9_amended 2 (Or.inr (Or.inl rfl)) (fun _ => 0) (fun _ => 0)
    (fun _ => le_refl 0) (fun _ => le_refl 0)

/-- C4: `expand_grid_if_needed` returns true exactly when the clamped target
dimensions differ from the current ones; a no-op returns the state unchanged;
on a resize the new dimensions are the clamped targets, the old contents
reappear unchanged at the centering offset, every cell outside the copied
window is dead, and the active bounds are shifted by the offset. -/
theorem C4_expand (s : GameState) (tW tH : Nat)
    (hW : s.width ≤ s.max_width) (hH : s.height ≤ s.max_height) :
    ((expand_grid_if_needed s tW tH).1 = true ↔
      (min (max s.width tW) s.max_width ≠ s.width ∨
       min (max s.height tH) s.max_height ≠ s.height)) ∧
    ((expand_grid_if_needed s tW tH).1 = false →
      (expand_grid_if_needed s tW tH).2 = s) ∧
    ((expand_grid_if_needed s tW tH).1 = true →
      (expand_grid_if_needed s tW tH).2.width = min (max s.width tW) s.max_width ∧
      (expand_grid_if_needed s tW tH).2.height = min (max s.height tH) s.max_height ∧
      (∀ y x : Nat, y < s.height → x < s.width →
        gcell (expand_grid_if_needed s tW tH).2.grid
          (y + (min (max s.height tH) s.max_height - s.height) / 2)
          (x + (min (max s.width tW) s.max_width - s.width) / 2) =
          gcell s.grid y x) ∧
      (∀ Y X : Nat, Y < min (max s.height tH) s.max_height →
        X < min (max s.width tW) s.max_width →
        (Y < (min (max s.height tH) s.max_height - s.height) / 2 ∨
         (min (max s.height tH) s.max_height - s.height) / 2 + s.height ≤ Y ∨
         X < (min (max s.width tW) s.max_width - s.width) / 2 ∨
         (min (max s.width tW) s.max_width - s.width) / 2 + s.width ≤ X) →
        gcell (expand_grid_if_needed s tW tH).2.grid Y X = 0) ∧
      (expand_grid_if_needed s tW tH).2.active_bounds =
        (s.active_bounds.1 + ((min (max s.width tW) s.max_width - s.width) / 2 : Nat),
         s.active_bounds.2.1 + ((min (max s.width tW) s.max_width - s.width) / 2 : Nat),
         s.active_bounds.2.2.1 + ((min (max s.height tH) s.max_height - s.height) / 2 : Nat),
         s.active_bounds.2.2.2 + ((min (max s.height tH) s.max_height - s.height) / 2 : Nat))) := by
  have hnW : s.width ≤ min (max s.width tW) s.max_width :=
    le_min (le_max_left _ _) hW
  have hnH : s.height ≤ min (max s.height tH) s.max_height :=
    le_min (le_max_left _ _) hH
  unfold expand_grid_if_needed
  dsimp only
  split
  · rename_i hcond
    refine ⟨⟨fun _ => hcond, fun _ => rfl⟩, ?_, fun _ => ?_⟩
    · intro h'
      simp at h'
    refine ⟨rfl, rfl, ?_, ?_, rfl⟩
    · intro y x hy hx
      rw [gcell_mk _ _ _ _ _ (by omega) (by omega)]
      rw [if_pos (by omega)]
      rw [Nat.add_sub_cancel, Nat.add_sub_cancel]
    · intro Y X hY hX hout
      rw [gcell_mk _ _ _ _ _ hY hX]
      rw [if_neg (by omega)]
  · rename_i hcond
    refine ⟨⟨fun h' => absurd h' (by simp), fun h' => absurd h' hcond⟩,
      fun _ => rfl, fun h' => absurd h' (by simp)⟩

/-- C4 (witness): expanding a 4 by 3 grid with maxima 10 by 10 towards
6 by 5 resizes. -/
theorem C4_witness :
    (expand_grid_if_needed (initState 4 3 10 10) 6 5).1 = true ↔
      (min (max 4 6) 10 ≠ 4 ∨ min (max 3 5) 10 ≠ 3) :=
  (C4_expand (initState 4 3 10 10) 6 5 (by decide) (by decide)).1

/-- C6 (counterexample): `set_max_size` stores new maxima without clamping
the current dimensions, so shrinking the maxima below the current size
violates the claimed invariant. -/
theorem C6_counterexample :
    ¬ ((set_max_size (initState 100 100 500 500) 50 50).width ≤
       (set_max_size (initState 100 100 500 500) 50 50).max_width) := by
  decide

/-- C6 (amended): the invariant `width ≤ maxWidth` and `height ≤ maxHeight`
is established by construction whenever the initial dimensions are within
the maxima, and preserved by `step`, `expand` and `clear`; it is not
preserved by `setMaxSize` (see the counterexample) nor by `setGrid`, which
adopt new maxima or dimensions without clamping. -/
theorem C6_amended (s : GameState) (rng : Nat → Rat) (tW tH w h mw mh : Nat)
    (hs : s.width ≤ s.max_width ∧ s.height ≤ s.max_height)
    (hw : w ≤ mw) (hh : h ≤ mh) :
    ((update s rng).width ≤ (update s rng).max_width ∧
     (update s rng).height ≤ (update s rng).max_height) ∧
    ((expand_grid_if_needed s tW tH).2.width ≤
       (expand_grid_if_needed s tW tH).2.max_width ∧
     (expand_grid_if_needed s tW tH).2.height ≤
       (expand_grid_if_needed s tW tH).2.max_height) ∧
    ((clear s).width ≤ (clear s).max_width ∧
     (clear s).height ≤ (clear s).max_height) ∧
    ((initState w h mw mh).width ≤ (initState w h mw mh).max_width ∧
     (initState w h mw mh).height ≤ (initState w h mw mh).max_height) := by
  refine ⟨?_, ?_, hs, ⟨hw, hh⟩⟩
  · rw [update_width, update_max_width, update_height, update_max_height]
    exact hs
  · unfold expand_grid_if_needed
    dsimp only
    split
    · exact ⟨min_le_right _ _, min_le_right _ _⟩
    · exact hs

/-- C6 (witness): the invariant after one step from a fresh 3 by 3 engine
with maxima 9 by 9. -/
theorem C6_witness :
    (update (initState 3 3 9 9) (fun _ => 0)).width ≤
      (update (initState 3 3 9 9) (fun _ => 0)).max_width ∧
    (update (initState 3 3 9 9) (fun _ => 0)).height ≤
      (update (initState 3 3 9 9) (fun _ => 0)).max_height :=
  (C6_amended (initState 3 3 9 9) (fun _ => 0) 5 5 2 2 8 8
    (by decide) (by decide) (by decide)).1

/-- C7 (counterexample): `set_grid` only casts to `uint8` (reduction modulo
256); the out-of-range color 5 is stored as 5, so the stored values are not
clamped or validated to 0..4. -/
theorem C7_counterexample :
    ¬ ValidGrid (set_grid (initState 2 2 500 500) [[5]]).grid := by
  decide

/-- C7 (amended): `step`, `expand` and `clear` only ever write values in
0..4 when the current grid is valid; `set_grid` stores its input merely
reduced modulo 256, so it admits out-of-range values (see the
counterexample). -/
theorem C7_amended (s : GameState) (rng : Nat → Rat) (tW tH : Nat)
    (hg : ValidGrid s.grid) :
    ValidGrid (update s rng).grid ∧
    ValidGrid ((expand_grid_if_needed s tW tH).2.grid) ∧
    ValidGrid (clear s).grid := by
  have hg1 : ValidGrid (update_active_bounds s).grid := by
    rw [uab_grid]; exact hg
  refine ⟨?_, ?_, ?_⟩
  · unfold update
    dsimp only
    split
    · exact hg1
    · exact foldl_stepCell_valid _ _ _ _ _ _ _ hg1 _ _ 0 hg1
  · unfold expand_grid_if_needed
    dsimp only
    split
    · intro r hr
      rcases List.mem_map.mp hr with ⟨yy, hyy, rfl⟩
      intro v hv
      rcases List.mem_map.mp hv with ⟨xx, hxx, rfl⟩
      split
      · exact gcell_le _ _ _ hg
      · omega
    · exact hg
  · intro r hr
    rw [List.eq_of_mem_replicate hr]
    intro v hv
    rw [List.eq_of_mem_replicate hv]
    omega

/-- C7 (witness): a step from the valid blinker grid keeps the grid valid. -/
theorem C7_witness : ValidGrid (update (blinkerCustom 2) (fun _ => 0)).grid :=
  (C7_amended (blinkerCustom 2) (fun _ => 0) 4 4 (by decide)).1

/-- C10: the Mandelbrot seed grid marks a pixel alive (1) exactly when the
escape iteration of the linearly mapped complex point stays strictly below
the threshold, and every cell is 0 or 1; the generator is a pure function of
its arguments (modelled over exact rational arithmetic). -/
theorem C10_mandelbrot (width height : Nat) (x_min x_max y_min y_max : Rat)
    (max_iter threshold : Nat) (x y : Nat) (hx : x < width) (hy : y < height) :
    (gcell (generate_mandelbrot_grid width height x_min x_max y_min y_max
        max_iter threshold) y x = 1 ↔
      mandelbrot_iteration
        (x_min + ((x : Rat) / (width : Rat)) * (x_max - x_min),
         y_min + ((y : Rat) / (height : Rat)) * (y_max - y_min)) max_iter
        < threshold) ∧
    (gcell (generate_mandelbrot_grid width height x_min x_max y_min y_max
        max_iter threshold) y x = 0 ∨
     gcell (generate_mandelbrot_grid width height x_min x_max y_min y_max
        max_iter threshold) y x = 1) := by
  unfold generate_mandelbrot_grid
  rw [gcell_mk _ _ _ _ _ hy hx]
  dsimp only
  constructor
  · split_ifs with h <;> simp [h]
  · split_ifs with h <;> simp

/-- C10 (witness): every cell of a concrete 6 by 4 seed grid is 0 or 1. -/
theorem C10_witness :
    gcell (generate_mandelbrot_grid 6 4 (mkRat (-5) 2) (mkRat 3 2)
      (-2) 2 3 2) 1 1 = 0 ∨
    gcell (generate_mandelbrot_grid 6 4 (mkRat (-5) 2) (mkRat 3 2)
      (-2) 2 3 2) 1 1 = 1 :=
  (C10_mandelbrot 6 4 (mkRat (-5) 2) (mkRat 3 2) (-2) 2 3 2 1 1
    (by decide) (by decide)).2

/-- Membership in `aliveCells` is exactly being an in-range coordinate with a
non-dead value. -/
theorem mem_aliveCells (g : List (List Nat)) (p : Nat × Nat) :
    p ∈ aliveCells g ↔
      p.2 < g.length ∧ p.1 < (g.getD p.2 []).length ∧ 0 < gcell g p.2 p.1 := by
  rcases p with ⟨x, y⟩
  unfold aliveCells
  simp only [List.mem_flatMap, List.mem_filterMap, List.mem_range,
    Option.ite_none_right_eq_some, Option.some.injEq, Prod.mk.injEq]
  constructor
  · rintro ⟨y', hy', x', hx', hgt, rfl, rfl⟩
    exact ⟨hy', hx', hgt⟩
  · rintro ⟨hy, hx, hgt⟩
    exact ⟨y, hy, x, hx, hgt, rfl, rfl⟩

/-- The alive-cell list is empty exactly when the grid total is zero (on a
grid of naturals, `np.sum` vanishes exactly when every cell is dead). -/
theorem aliveCells_nil_iff (g : List (List Nat)) :
    aliveCells g = [] ↔ gridTotal g = 0 := by
  constructor
  · intro hnil
    unfold gridTotal
    rw [List.sum_eq_zero_iff]
    intro t ht
    rcases List.mem_map.mp ht with ⟨r, hr, rfl⟩
    rw [List.sum_eq_zero_iff]
    intro v hv
    by_contra hv0
    rcases List.mem_iff_getElem.mp hr with ⟨yi, hyi, rfl⟩
    rcases List.mem_iff_getElem.mp hv with ⟨xi, hxi, rfl⟩
    have hmem : (xi, yi) ∈ aliveCells g := by
      rw [mem_aliveCells]
      refine ⟨hyi, ?_, ?_⟩
      · rw [List.getD_eq_getElem g [] hyi]
        exact hxi
      · unfold gcell
        rw [List.getD_eq_getElem g [] hyi, List.getD_eq_getElem _ 0 hxi]
        exact Nat.pos_of_ne_zero hv0
    rw [hnil] at hmem
    cases hmem
  · intro h0
    rw [List.eq_nil_iff_forall_not_mem]
    intro p hp
    rcases (mem_aliveCells g p).mp hp with ⟨hy, hx, hpos⟩
    have hrow : g.getD p.2 [] ∈ g := by
      rw [List.getD_eq_getElem g [] hy]
      exact List.getElem_mem hy
    have hv : gcell g p.2 p.1 ∈ g.getD p.2 [] := by
      unfold gcell
      rw [List.getD_eq_getElem _ 0 hx]
      exact List.getElem_mem hx
    have hz : gcell g p.2 p.1 = 0 := by
      have h1 : (g.map (fun r => r.sum)).sum = 0 := h0
      rw [List.sum_eq_zero_iff] at h1
      have h2 := h1 _ (List.mem_map_of_mem _ hrow)
      rw [List.sum_eq_zero_iff] at h2
      exact h2 _ hv
    omega

/-- C5: after `update_active_bounds`, an all-dead grid gets the centered
2 by 2 box; otherwise the stored rectangle is the tight bounding box of the
non-dead cells widened by the margin 5 on all sides and clamped to the grid
extents, and every non-dead cell lies strictly inside the stored rectangle
(the max sides being exclusive). -/
theorem C5_bounds (s : GameState) (hwf : WFGrid s) :
    (gridTotal s.grid = 0 →
      (update_active_bounds s).active_bounds =
        ((s.width / 2 : Int) - 1, (s.width / 2 : Int) + 1,
         (s.height / 2 : Int) - 1, (s.height / 2 : Int) + 1)) ∧
    (gridTotal s.grid ≠ 0 →
      ∃ a b c d : Nat,
        (∀ p ∈ aliveCells s.grid, a ≤ p.1 ∧ p.1 ≤ b ∧ c ≤ p.2 ∧ p.2 ≤ d) ∧
        (∃ p ∈ aliveCells s.grid, p.1 = a) ∧
        (∃ p ∈ aliveCells s.grid, p.1 = b) ∧
        (∃ p ∈ aliveCells s.grid, p.2 = c) ∧
        (∃ p ∈ aliveCells s.grid, p.2 = d) ∧
        (update_active_bounds s).active_bounds =
          (max 0 ((a : Int) - 5), min (s.width : Int) ((b : Int) + 5 + 1),
           max 0 ((c : Int) - 5), min (s.height : Int) ((d : Int) + 5 + 1)) ∧
        (∀ x y : Nat, y < s.height → x < s.width → 0 < gcell s.grid y x →
          (update_active_bounds s).active_bounds.1 ≤ (x : Int) ∧
          (x : Int) < (update_active_bounds s).active_bounds.2.1 ∧
          (update_active_bounds s).active_bounds.2.2.1 ≤ (y : Int) ∧
          (y : Int) < (update_active_bounds s).active_bounds.2.2.2)) := by
  constructor
  · intro h0
    unfold update_active_bounds
    rw [if_pos h0]
  · intro h0
    rcases hae : aliveCells s.grid with _ | ⟨p, rest⟩
    · exact absurd ((aliveCells_nil_iff s.grid).mp hae) h0
    have htight : ∀ q ∈ p :: rest,
        (rest.map (fun q => q.1)).foldl min p.1 ≤ q.1 ∧
        q.1 ≤ (rest.map (fun q => q.1)).foldl max p.1 ∧
        (rest.map (fun q => q.2)).foldl min p.2 ≤ q.2 ∧
        q.2 ≤ (rest.map (fun q => q.2)).foldl max p.2 := by
      intro q hq
      rcases List.mem_cons.mp hq with rfl | hq
      · exact ⟨foldl_min_le_init _ _, le_foldl_max_init _ _,
          foldl_min_le_init _ _, le_foldl_max_init _ _⟩
      · exact ⟨foldl_min_le_mem _ _ _ (List.mem_map_of_mem _ hq),
          le_foldl_max_mem _ _ _ (List.mem_map_of_mem _ hq),
          foldl_min_le_mem _ _ _ (List.mem_map_of_mem _ hq),
          le_foldl_max_mem _ _ _ (List.mem_map_of_mem _ hq)⟩
    have hbv : (update_active_bounds s).active_bounds =
        (max 0 ((((rest.map (fun q => q.1)).foldl min p.1 : Nat) : Int) - 5),
         min (s.width : Int) ((((rest.map (fun q => q.1)).foldl max p.1 : Nat) : Int) + 5 + 1),
         max 0 ((((rest.map (fun q => q.2)).foldl min p.2 : Nat) : Int) - 5),
         min (s.height : Int) ((((rest.map (fun q => q.2)).foldl max p.2 : Nat) : Int) + 5 + 1)) := by
      unfold update_active_bounds
      rw [if_neg h0, hae]
      rfl
    refine ⟨(rest.map (fun q => q.1)).foldl min p.1,
      (rest.map (fun q => q.1)).foldl max p.1,
      (rest.map (fun q => q.2)).foldl min p.2,
      (rest.map (fun q => q.2)).foldl max p.2,
      htight, ?_, ?_, ?_, ?_, hbv, ?_⟩
    · rcases foldl_min_choice (rest.map (fun q => q.1)) p.1 with h | h
      · exact ⟨p, List.mem_cons_self p rest, h.symm⟩
      · rcases List.mem_map.mp h with ⟨q, hq, hq'⟩
        exact ⟨q, List.mem_cons_of_mem p hq, hq'⟩
    · rcases foldl_max_choice (rest.map (fun q => q.1)) p.1 with h | h
      · exact ⟨p, List.mem_cons_self p rest, h.symm⟩
      · rcases List.mem_map.mp h with ⟨q, hq, hq'⟩
        exact ⟨q, List.mem_cons_of_mem p hq, hq'⟩
    · rcases foldl_min_choice (rest.map (fun q => q.2)) p.2 with h | h
      · exact ⟨p, List.mem_cons_self p rest, h.symm⟩
      · rcases List.mem_map.mp h with ⟨q, hq, hq'⟩
        exact ⟨q, List.mem_cons_of_mem p hq, hq'⟩
    · rcases foldl_max_choice (rest.map (fun q => q.2)) p.2 with h | h
      · exact ⟨p, List.mem_cons_self p rest, h.symm⟩
      · rcases List.mem_map.mp h with ⟨q, hq, hq'⟩
        exact ⟨q, List.mem_cons_of_mem p hq, hq'⟩
    · intro x y hy hx hpos
      have hmem : (x, y) ∈ aliveCells s.grid := by
        rw [mem_aliveCells]
        have hylen : y < s.grid.length := by rw [hwf.1]; exact hy
        refine ⟨hylen, ?_, hpos⟩
        have : s.grid.getD y [] ∈ s.grid := by
          rw [List.getD_eq_getElem s.grid [] hylen]
          exact List.getElem_mem hylen
        rw [hwf.2 _ this]
        exact hx
      rw [hae] at hmem
      rcases htight (x, y) hmem with ⟨ha, hb, hc, hd⟩
      rw [hbv]
      dsimp only
      refine ⟨max_le_iff.mpr ⟨?_, ?_⟩, lt_min_iff.mpr ⟨?_, ?_⟩,
        max_le_iff.mpr ⟨?_, ?_⟩, lt_min_iff.mpr ⟨?_, ?_⟩⟩ <;> omega

/-- C5 (witness): a fresh all-dead 4 by 4 engine collapses the bounds to the
centered box. -/
theorem C5_witness :
    (update_active_bounds (initState 4 4 9 9)).active_bounds = (1, 3, 1, 3) :=
  (C5_bounds (initState 4 4 9 9) (by decide)).1 (by decide)

end GameOfDeath
